import Mathlib

/-!
Verification of the resilient external-call core of the shopsmart demo
application: error classification, circuit breaker, retry/backoff loops and
the service-endpoint resolver.  Each definition is a shallow embedding of the
corresponding Python function; timestamps are modelled as integers (seconds),
float delays as rationals, and exceptions as explicit error values.
-/

namespace ShopSmart

/-! ## Error model

`ServiceError` subclasses in `src/services/auth/error_handler.py` and
`src/services/order-processing/error_handler.py` each fix a `code` string and
an HTTP `status_code`; a classified error is identified by that pair (an
`isinstance` test against a subclass is equivalent to comparing `code`).
-/

structure SvcError where
  code : String
  statusCode : Nat
deriving DecidableEq, Repr

def dynamoDBError : SvcError := ⟨"DYNAMODB_ERROR", 503⟩

def mongoDBError : SvcError := ⟨"MONGODB_ERROR", 503⟩

def validationError : SvcError := ⟨"VALIDATION_ERROR", 400⟩

def notFoundError : SvcError := ⟨"NOT_FOUND", 404⟩

def conflictError : SvcError := ⟨"CONFLICT", 409⟩

def rateLimitError : SvcError := ⟨"RATE_LIMIT_EXCEEDED", 429⟩

def internalError : SvcError := ⟨"INTERNAL_ERROR", 500⟩

/-- Raw failures that can escape a DynamoDB operation
(`DynamoDBManager.execute_with_retry`, auth service): a botocore
`ClientError` carrying an AWS error code, a `BotoCoreError`, or any other
exception. -/
inductive DynamoRaw where
  | clientError (errorCode : String)
  | botoCoreError
  | otherError
deriving DecidableEq, Repr

/-- Classification performed by the `_execute` closure of
`DynamoDBManager.execute_with_retry` (auth/error_handler.py lines 142-168):
the recognized AWS error codes map to specific `ServiceError` subclasses and
every other failure becomes a `DynamoDBError`. -/
def classifyDynamo : DynamoRaw → SvcError
  | .clientError c =>
      if c = "ResourceNotFoundException" then notFoundError
      else if c = "ConditionalCheckFailedException" then conflictError
      else if c = "ProvisionedThroughputExceededException" then rateLimitError
      else if c = "ValidationException" then validationError
      else dynamoDBError
  | .botoCoreError => dynamoDBError
  | .otherError => dynamoDBError

/-- Raw failures that can escape a MongoDB operation
(`MongoDBManager.execute_with_retry`, order-processing service). -/
inductive MongoRaw where
  | duplicateKey
  | writeError (code : Int)
  | operationFailure (code : Int)
  | connectionFailure
  | serverSelectionTimeout
  | pyMongoError
  | otherError
deriving DecidableEq, Repr

/-- Classification performed by the `_execute` closure of
`MongoDBManager.execute_with_retry` (order-processing/error_handler.py lines
151-181). -/
def classifyMongo : MongoRaw → SvcError
  | .duplicateKey => conflictError
  | .writeError _ => mongoDBError
  | .operationFailure c => if c = 11000 then conflictError else mongoDBError
  | .connectionFailure => mongoDBError
  | .serverSelectionTimeout => mongoDBError
  | .pyMongoError => mongoDBError
  | .otherError => mongoDBError

/-- Outcome of invoking a guarded zero-argument operation: it either returns
a value or raises an error of type `ε`. -/
inductive Outcome (ε : Type) (α : Type) where
  | ok (a : α)
  | raise (e : ε)
deriving DecidableEq, Repr

/-- Map the error of an outcome (models wrapping an operation in a
classifying try/except block). -/
def Outcome.mapErr (f : ε → ε') : Outcome ε α → Outcome ε' α
  | .ok a => .ok a
  | .raise e => .raise (f e)

/-! ## Circuit breaker

Shallow embedding of the `CircuitBreaker` class that appears identically in
auth/error_handler.py (lines 172-234), order-processing/error_handler.py and
product-catalog/error_handler.py.  `datetime.utcnow()` is modelled by an
explicit `now : Int` argument (seconds); `expected_exception` (an exception
class tested with `isinstance`) is modelled by a Boolean predicate on the
raised `SvcError`.
-/

inductive BreakerState where
  | closed
  | opened
  | halfOpen
deriving DecidableEq, Repr

structure CircuitBreaker where
  failureThreshold : Nat
  recoveryTimeout : Int
  failureCount : Nat
  lastFailureTime : Option Int
  state : BreakerState
deriving DecidableEq, Repr

/-- Embedding of `CircuitBreaker.__init__`: counters at zero, no failure recorded, state
CLOSED. -/
def CircuitBreaker.mkInit (ft : Nat) (rt : Int) : CircuitBreaker :=
  ⟨ft, rt, 0, none, .closed⟩

/-- Embedding of `CircuitBreaker._should_attempt_reset`: true when no failure time is
recorded, else when `now - last_failure_time >= recovery_timeout`. -/
def CircuitBreaker.shouldAttemptReset (b : CircuitBreaker) (now : Int) : Bool :=
  match b.lastFailureTime with
  | none => true
  | some t => b.recoveryTimeout ≤ now - t

/-- Embedding of `CircuitBreaker._on_success`: reset the counter and close the breaker. -/
def CircuitBreaker.onSuccess (b : CircuitBreaker) : CircuitBreaker :=
  { b with failureCount := 0, state := .closed }

/-- Embedding of `CircuitBreaker._on_failure`: increment the counter, stamp the failure
time, and open the breaker once the threshold is reached. -/
def CircuitBreaker.onFailure (b : CircuitBreaker) (now : Int) : CircuitBreaker :=
  let b1 := { b with failureCount := b.failureCount + 1, lastFailureTime := some now }
  if b1.failureThreshold ≤ b1.failureCount then { b1 with state := .opened } else b1

/-- The pre-dispatch gate at the top of `CircuitBreaker.call`: an OPEN breaker
either moves to HALF_OPEN (when reset may be attempted) and lets the call
through, or rejects it; any other state lets the call through unchanged.  The
Boolean is true when the guarded operation is dispatched. -/
def CircuitBreaker.gate (b : CircuitBreaker) (now : Int) : CircuitBreaker × Bool :=
  if b.state = .opened then
    if b.shouldAttemptReset now then ({ b with state := .halfOpen }, true)
    else (b, false)
  else (b, true)

/-- Result of a guarded call: a value, the `CIRCUIT_BREAKER_OPEN` service
error raised without dispatching, or the operation's own error re-raised. -/
inductive CallResult (α : Type) where
  | ok (a : α)
  | circuitOpen
  | raised (e : SvcError)
deriving DecidableEq, Repr

/-- Embedding of `CircuitBreaker.call`: gate, then dispatch the operation exactly once;
a success resets the breaker, an error matching `expected` is counted via
`_on_failure`, and any other error is re-raised with no state change.  The
final component counts how many times the operation was invoked. -/
def CircuitBreaker.call (expected : SvcError → Bool) (b : CircuitBreaker) (now : Int)
    (op : Outcome SvcError α) : CircuitBreaker × CallResult α × Nat :=
  let g := b.gate now
  if g.2 then
    match op with
    | .ok a => (g.1.onSuccess, .ok a, 1)
    | .raise e =>
        if expected e then (g.1.onFailure now, .raised e, 1)
        else (g.1, .raised e, 1)
  else (g.1, .circuitOpen, 0)

/-- The invariant from the spec data model: an OPEN breaker has a recorded
last failure time and a failure count at or above the threshold. -/
def BreakerInv (b : CircuitBreaker) : Prop :=
  b.state = .opened → (∃ t, b.lastFailureTime = some t) ∧ b.failureThreshold ≤ b.failureCount

/-- Fold a list of counted-failure call outcomes (each raising the error `e`
at the given timestamp) through the breaker. -/
def applyFailures (expected : SvcError → Bool) (e : SvcError) (b : CircuitBreaker)
    (times : List Int) : CircuitBreaker :=
  times.foldl (fun b now => (b.call expected now (Outcome.raise (α := Unit) e)).1) b

/-! ## Retry configuration and database managers

`RetryConfig` appears identically in all three services' error handlers.
Delays are Python floats; they are embedded as rationals.
-/

structure RetryConfig where
  maxAttempts : Nat
  baseDelay : Rat
  maxDelay : Rat
  exponentialBase : Rat
  jitter : Bool
deriving DecidableEq, Repr

/-- The constructor defaults of `RetryConfig.__init__`. -/
def RetryConfig.defaults : RetryConfig :=
  ⟨3, 1, 60, 2, true⟩

/-- The breaker's `expected_exception = DynamoDBError` test
(`isinstance(e, DynamoDBError)` holds exactly for the `DYNAMODB_ERROR`
class). -/
def expectedDynamo (e : SvcError) : Bool :=
  e.code = "DYNAMODB_ERROR"

/-- The breaker's `expected_exception = MongoDBError` test. -/
def expectedMongo (e : SvcError) : Bool :=
  e.code = "MONGODB_ERROR"

structure DynamoDBManager where
  retryConfig : RetryConfig
  circuitBreaker : CircuitBreaker

/-- Embedding of `DynamoDBManager.__init__`: the given (or default) retry config and a
breaker with `failure_threshold=5`, `recovery_timeout=30`. -/
def DynamoDBManager.mkInit (cfg : RetryConfig) : DynamoDBManager :=
  ⟨cfg, CircuitBreaker.mkInit 5 30⟩

/-- Embedding of `DynamoDBManager.execute_with_retry` (auth/error_handler.py lines
139-170): wrap the operation's outcome in the classifying `_execute`
closure and run it through the circuit breaker.  The body contains no retry
loop and never reads `self.retry_config`; the operation-invocation count is
the one reported by `CircuitBreaker.call`. -/
def DynamoDBManager.executeWithRetry (m : DynamoDBManager) (now : Int)
    (op : Outcome DynamoRaw α) : DynamoDBManager × CallResult α × Nat :=
  let r := m.circuitBreaker.call expectedDynamo now (op.mapErr classifyDynamo)
  ({ m with circuitBreaker := r.1 }, r.2.1, r.2.2)

structure MongoDBManager where
  retryConfig : RetryConfig
  circuitBreaker : CircuitBreaker

/-- Embedding of `MongoDBManager.__init__`: breaker with `failure_threshold=5`,
`recovery_timeout=30`, expected exception `MongoDBError`. -/
def MongoDBManager.mkInit (cfg : RetryConfig) : MongoDBManager :=
  ⟨cfg, CircuitBreaker.mkInit 5 30⟩

/-- Embedding of `MongoDBManager.execute_with_retry` (order-processing/error_handler.py
lines 148-183): identical shape to the DynamoDB manager — classification
plus a single circuit-breaker call, no retry loop. -/
def MongoDBManager.executeWithRetry (m : MongoDBManager) (now : Int)
    (op : Outcome MongoRaw α) : MongoDBManager × CallResult α × Nat :=
  let r := m.circuitBreaker.call expectedMongo now (op.mapErr classifyMongo)
  ({ m with circuitBreaker := r.1 }, r.2.1, r.2.2)

/-! ## HTTP client retry loop

`HTTPClientService._make_request` (order-processing/services/http_client.py
lines 352-436).  One attempt either produces an `httpx.Response` with a
status code, raises a transport error (`TimeoutException` / `ConnectError`),
or raises an unexpected exception.  The loop runs `self.retries + 1`
iterations with `attempt` counting from 0.
-/

inductive AttemptOutcome where
  | response (status : Nat)
  | transportError
  | unexpectedError
deriving DecidableEq, Repr

/-- The exceptions the retry loop catches and stores in `last_exception`. -/
inductive HttpErr where
  | statusError (status : Nat)
  | transportError
deriving DecidableEq, Repr

/-- Observable result of `_make_request`: a returned response (identified by
its status code), the re-raised `last_exception` after the loop, an
immediately re-raised unexpected exception, or the unreachable fall-through
with no stored exception. -/
inductive ReqResult where
  | returned (status : Nat)
  | raisedHttp (e : HttpErr)
  | raisedUnexpected
  | raisedNone
deriving DecidableEq, Repr

/-- The test `response.status_code in [502, 503, 504]`. -/
def retryableStatus (s : Nat) : Bool :=
  s = 502 || s = 503 || s = 504

/-- The body of the `for attempt in range(self.retries + 1)` loop.  `fuel` is
the number of remaining iterations, `a` the current `attempt` index and
`last` the stored `last_exception`; `op a` gives the outcome of the attempt
with index `a`.  Returns the result and the number of times the underlying
request was issued. -/
def makeRequestGo (retries : Nat) (op : Nat → AttemptOutcome) :
    Nat → Nat → Option HttpErr → ReqResult × Nat
  | 0, _, last =>
      (match last with
       | some e => .raisedHttp e
       | none => .raisedNone, 0)
  | fuel + 1, a, _ =>
      match op a with
      | .response s =>
          if retryableStatus s ∧ a < retries then
            let r := makeRequestGo retries op fuel (a + 1) (some (.statusError s))
            (r.1, r.2 + 1)
          else (.returned s, 1)
      | .transportError =>
          let r := makeRequestGo retries op fuel (a + 1) (some .transportError)
          (r.1, r.2 + 1)
      | .unexpectedError => (.raisedUnexpected, 1)

/-- Embedding of `HTTPClientService._make_request` with `self.retries = retries`. -/
def makeRequest (retries : Nat) (op : Nat → AttemptOutcome) : ReqResult × Nat :=
  makeRequestGo retries op (retries + 1) 0 none

/-! ## Backoff delays

The delay the HTTP client sleeps between attempts (http_client.py lines
402-405): `base_wait = 2 ** attempt`, `jitter = random.uniform(0.1, 0.5)`,
`wait_time = base_wait + base_wait * jitter`; `u` is the sampled jitter.
-/

def httpBackoffWait (attempt : Nat) (u : Rat) : Rat :=
  2 ^ attempt + 2 ^ attempt * u

/-- The delay slept by `CacheManager.set_with_retry`
(product-catalog/error_handler.py line 192) after the failed attempt with
0-based index `attempt`: `base_delay * (2 ** attempt)` — no `max_delay` cap
and no jitter. -/
def cacheSetDelay (cfg : RetryConfig) (attempt : Nat) : Rat :=
  cfg.baseDelay * 2 ^ attempt

/-- The loop of `CacheManager.set_with_retry` (lines 185-196): try the Redis
`setex`; on success return True, on a Redis error sleep (when attempts
remain) and continue; after the loop return False.  `outcomes a` is true when
the attempt with index `a` succeeds.  Also returns the list of slept
delays. -/
def setWithRetryGo (cfg : RetryConfig) (outcomes : Nat → Bool) :
    Nat → Nat → Bool × List Rat
  | 0, _ => (false, [])
  | fuel + 1, a =>
      if outcomes a then (true, [])
      else if a < cfg.maxAttempts - 1 then
        let r := setWithRetryGo cfg outcomes fuel (a + 1)
        (r.1, cacheSetDelay cfg a :: r.2)
      else
        setWithRetryGo cfg outcomes fuel (a + 1)

/-- Embedding of `CacheManager.set_with_retry` with the manager's retry config. -/
def setWithRetry (cfg : RetryConfig) (outcomes : Nat → Bool) : Bool × List Rat :=
  setWithRetryGo cfg outcomes cfg.maxAttempts 0

/-! ## Service discovery

`ServiceDiscovery` (order-processing/services/service_discovery.py).  The
service cache (`self._service_cache`, a dict of dicts) is an association
list from service name to its property list; SSM parameter paths arrive
already relative to `self.ssm_prefix` (the `replace`/`strip('/')` step of
line 180), `os.environ` is the `env` function, and the event-loop clock is
an explicit `now : Int`.  Nothing in the model raises, so the
`except Exception` fallback arm of `get_service_endpoint` (lines 95-101) is
dead code here.
-/

def fullUrlKey : String := "full_url"

/-- Structural split of a path on `/` (the `param_path.split('/')` step);
character-level recursion so that concrete paths evaluate. -/
def splitSlashAux : List Char → List Char → List String
  | [], acc => [String.mk acc.reverse]
  | c :: rest, acc =>
      if c = '/' then String.mk acc.reverse :: splitSlashAux rest []
      else splitSlashAux rest (c :: acc)

def splitSlash (s : String) : List String :=
  splitSlashAux s.data []

/-- Python dict read `d.get(k)` on an association list. -/
def assocGet (l : List (String × β)) (k : String) : Option β :=
  (l.find? (fun p => p.1 == k)).map (fun p => p.2)

/-- Python dict write `d[k] = v` on an association list (overwrite in place,
else append, preserving insertion order). -/
def assocSet (l : List (String × β)) (k : String) (v : β) : List (String × β) :=
  match l with
  | [] => [(k, v)]
  | (k1, v1) :: rest =>
      if k1 = k then (k, v) :: rest else (k1, v1) :: assocSet rest k v

structure SDState where
  serviceCache : List (String × List (String × String))
  lastCacheUpdate : Int
  cacheTtl : Int
  ssmAvailable : Bool
  env : String → Option String

/-- The parameter-parsing loop of `_refresh_service_cache` (lines 177-190):
split each relative path on `/`; when it has at least two parts, record
`value` under `services[serviceName][propertyName]`. -/
def parseServices (params : List (String × String)) :
    List (String × List (String × String)) :=
  params.foldl
    (fun acc pv =>
      match splitSlash pv.1 with
      | sname :: pname :: _ =>
          assocSet acc sname (assocSet ((assocGet acc sname).getD []) pname pv.2)
      | _ => acc)
    []

/-- The continuation of `_refresh_service_cache` after the awaited
`get_parameters_by_path` call resolves: on success replace the cache and
stamp `_last_cache_update`; on a `ClientError` or any other exception only
log — the previous cache snapshot stays in place. -/
def applyRegistryResponse (st : SDState) (now : Int)
    (reg : Except Unit (List (String × String))) : SDState :=
  match reg with
  | .error _ => st
  | .ok params => { st with serviceCache := parseServices params, lastCacheUpdate := now }

/-- Embedding of `ServiceDiscovery._refresh_service_cache`: a no-op when SSM is
unavailable, otherwise the fetch followed by `applyRegistryResponse`. -/
def refreshServiceCache (st : SDState) (now : Int)
    (reg : Except Unit (List (String × String))) : SDState :=
  if st.ssmAvailable then applyRegistryResponse st now reg else st

/-- Embedding of `ServiceDiscovery._is_cache_valid`: an empty cache is invalid; otherwise
the cache is valid while `now - _last_cache_update < _cache_ttl`. -/
def SDState.isCacheValid (st : SDState) (now : Int) : Bool :=
  if st.serviceCache.isEmpty then false
  else if now - st.lastCacheUpdate < st.cacheTtl then true else false

/-- The read `self._service_cache[name].get('full_url')` guarded by
`name in self._service_cache`. -/
def fullUrlOf (cache : List (String × List (String × String))) (name : String) :
    Option String :=
  match assocGet cache name with
  | none => none
  | some props => assocGet props fullUrlKey

/-- Python truthiness filter on an optional string (`if endpoint:`): the
empty string counts as absent. -/
def truthyOpt (o : Option String) : Option String :=
  match o with
  | some s => if s = "" then none else some s
  | none => none

/-- The env-var name `_get_fallback_endpoint` consults for a service: the explicit
`env_var_map` entries, else the generic
`name.upper().replace('-', '_') + "_SERVICE_URL"` pattern. -/
def envVarFor (name : String) : String :=
  if name = "auth" then ("AUTH_SERVICE_URL")
  else if name = "product-catalog" then ("PRODUCT_SERVICE_URL")
  else if name = "order-processing" then ("ORDER_PROCESSING_SERVICE_URL")
  else String.map (fun ch => if ch = '-' then '_' else ch.toUpper) name ++ "_SERVICE_URL"

/-- Embedding of `ServiceDiscovery._get_fallback_endpoint`: read the mapped environment
variable. -/
def getFallbackEndpoint (env : String → Option String) (name : String) : Option String :=
  env (envVarFor name)

/-- Steps 3-5 of `get_service_endpoint` (lines 70-93), executed after the
refresh: serve the (possibly stale) cached `full_url` when truthy, else the
truthy fallback endpoint, else `None`. -/
def resolveAfterRefresh (cache : List (String × List (String × String)))
    (env : String → Option String) (name : String) : Option String :=
  match truthyOpt (fullUrlOf cache name) with
  | some v => some v
  | none => truthyOpt (getFallbackEndpoint env name)

/-- Embedding of `ServiceDiscovery.get_service_endpoint` (lines 52-101), sequentially: a
valid-cache hit is served directly; otherwise the cache is refreshed against
the registry response `reg` and the post-refresh resolution runs. -/
def SDState.getServiceEndpoint (st : SDState) (now : Int)
    (reg : Except Unit (List (String × String))) (name : String) :
    SDState × Option String :=
  match (if st.isCacheValid now then truthyOpt (fullUrlOf st.serviceCache name) else none) with
  | some v => (st, some v)
  | none =>
      let st1 := refreshServiceCache st now reg
      (st1, resolveAfterRefresh st1.serviceCache st1.env name)

/-! ## Concurrent resolve calls

Cooperative-async interleaving of two `get_service_endpoint` calls.  The only
suspension point is the awaited `get_parameters_by_path` fetch inside
`_refresh_service_cache`; a task therefore runs in two synchronous segments:
(1) the cache-validity check, ending either in a finished cache hit or in an
issued fetch, and (2) on resume, applying the registry response to the shared
cache and finishing the resolution.  There is no lock or in-flight handle in
the source, so nothing prevents both tasks from issuing a fetch.
-/

inductive TaskPhase where
  | ready
  | waiting
  | finished (result : Option String)
deriving DecidableEq, Repr

structure ResolveTask where
  name : String
  phase : TaskPhase
deriving DecidableEq, Repr

/-- One synchronous segment of a resolve task against the shared discovery
state; returns the updated shared state, fetch counter and task. -/
def taskStep (now : Int) (reg : Except Unit (List (String × String)))
    (sd : SDState) (fetchCount : Nat) (t : ResolveTask) :
    SDState × Nat × ResolveTask :=
  match t.phase with
  | .ready =>
      match (if sd.isCacheValid now then truthyOpt (fullUrlOf sd.serviceCache t.name) else none) with
      | some v => (sd, fetchCount, { t with phase := .finished (some v) })
      | none =>
          if sd.ssmAvailable then
            (sd, fetchCount + 1, { t with phase := .waiting })
          else
            (sd, fetchCount, { t with phase := .finished (resolveAfterRefresh sd.serviceCache sd.env t.name) })
  | .waiting =>
      let sd1 := applyRegistryResponse sd now reg
      (sd1, fetchCount, { t with phase := .finished (resolveAfterRefresh sd1.serviceCache sd1.env t.name) })
  | .finished _ => (sd, fetchCount, t)

structure ConcSys where
  sd : SDState
  fetchCount : Nat
  t0 : ResolveTask
  t1 : ResolveTask

/-- Scheduler step: run one segment of task 0 (`i = false`) or task 1
(`i = true`). -/
def ConcSys.step (sys : ConcSys) (now : Int)
    (reg : Except Unit (List (String × String))) (i : Bool) : ConcSys :=
  if i then
    let r := taskStep now reg sys.sd sys.fetchCount sys.t1
    { sys with sd := r.1, fetchCount := r.2.1, t1 := r.2.2 }
  else
    let r := taskStep now reg sys.sd sys.fetchCount sys.t0
    { sys with sd := r.1, fetchCount := r.2.1, t0 := r.2.2 }

/-- Run a schedule of segment executions. -/
def ConcSys.run (sys : ConcSys) (now : Int)
    (reg : Except Unit (List (String × String))) (sched : List Bool) : ConcSys :=
  sched.foldl (fun s i => s.step now reg i) sys

/-- Number of tasks still before their cache-validity check. -/
def ConcSys.readyCount (sys : ConcSys) : Nat :=
  (if sys.t0.phase = .ready then 1 else 0) + (if sys.t1.phase = .ready then 1 else 0)

/-! ## Concrete states used as test inputs -/

/-- A cache-set retry configuration with eight attempts, unit base delay and
the default 60-second delay cap. -/
def c5cfg : RetryConfig := ⟨8, 1, 60, 2, false⟩

/-- Discovery state holding one expired cached entry for `auth` and no
fallback environment variables (TTL 300, last refreshed at 0). -/
def c6state : SDState :=
  { serviceCache := [("auth", [("full_url", "http://stale")])]
    lastCacheUpdate := 0
    cacheTtl := 300
    ssmAvailable := true
    env := fun _ => none }

/-- Discovery state with an empty (hence invalid) cache. -/
def sdExpired : SDState :=
  { serviceCache := []
    lastCacheUpdate := 0
    cacheTtl := 300
    ssmAvailable := true
    env := fun _ => none }

/-- A successful registry response advertising the `auth` service. -/
def regAuth : Except Unit (List (String × String)) :=
  .ok [("auth/full_url", "http://a")]

/-- Two concurrent resolve calls for `auth` against the expired cache. -/
def twoResolves : ConcSys :=
  { sd := sdExpired, fetchCount := 0, t0 := ⟨"auth", .ready⟩, t1 := ⟨"auth", .ready⟩ }

/-! ## Circuit breaker lemmas -/

lemma gate_not_opened (b : CircuitBreaker) (now : Int) (h : b.state ≠ .opened) :
    b.gate now = (b, true) := by
  simp [CircuitBreaker.gate, h]

lemma gate_open_reject (b : CircuitBreaker) (now t : Int) (hst : b.state = .opened)
    (hlast : b.lastFailureTime = some t) (hlt : now - t < b.recoveryTimeout) :
    b.gate now = (b, false) := by
  have hreset : b.shouldAttemptReset now = false := by
    simp [CircuitBreaker.shouldAttemptReset, hlast]
    omega
  simp [CircuitBreaker.gate, hst, hreset]

lemma gate_open_halfOpen (b : CircuitBreaker) (now t : Int) (hst : b.state = .opened)
    (hlast : b.lastFailureTime = some t) (hle : b.recoveryTimeout ≤ now - t) :
    b.gate now = ({ b with state := .halfOpen }, true) := by
  have hreset : b.shouldAttemptReset now = true := by
    simp [CircuitBreaker.shouldAttemptReset, hlast]
    omega
  simp [CircuitBreaker.gate, hst, hreset]

lemma call_of_gate_false (expected : SvcError → Bool) (b : CircuitBreaker) (now : Int)
    {α : Type} (op : Outcome SvcError α) (h : (b.gate now).2 = false) :
    b.call expected now op = ((b.gate now).1, .circuitOpen, 0) := by
  simp [CircuitBreaker.call, h]

lemma call_counted (expected : SvcError → Bool) (b : CircuitBreaker) (now : Int)
    {α : Type} (e : SvcError) (he : expected e = true) (h : (b.gate now).2 = true) :
    b.call expected now (Outcome.raise (α := α) e)
      = ((b.gate now).1.onFailure now, .raised e, 1) := by
  simp [CircuitBreaker.call, h, he]

lemma call_uncounted (expected : SvcError → Bool) (b : CircuitBreaker) (now : Int)
    {α : Type} (e : SvcError) (he : expected e = false) (h : (b.gate now).2 = true) :
    b.call expected now (Outcome.raise (α := α) e) = ((b.gate now).1, .raised e, 1) := by
  simp [CircuitBreaker.call, h, he]

lemma call_success (expected : SvcError → Bool) (b : CircuitBreaker) (now : Int)
    {α : Type} (a : α) (h : (b.gate now).2 = true) :
    b.call expected now (Outcome.ok a) = ((b.gate now).1.onSuccess, .ok a, 1) := by
  simp [CircuitBreaker.call, h]

lemma onFailure_below (b : CircuitBreaker) (now : Int)
    (h : b.failureCount + 1 < b.failureThreshold) :
    b.onFailure now
      = { b with failureCount := b.failureCount + 1, lastFailureTime := some now } := by
  simp only [CircuitBreaker.onFailure]
  rw [if_neg (by omega)]

lemma onFailure_at_threshold (b : CircuitBreaker) (now : Int)
    (h : b.failureThreshold ≤ b.failureCount + 1) :
    b.onFailure now
      = { b with
          failureCount := b.failureCount + 1
          lastFailureTime := some now
          state := .opened } := by
  simp only [CircuitBreaker.onFailure]
  rw [if_pos (by omega)]

lemma gate_fst_state (b : CircuitBreaker) (now : Int) (h : (b.gate now).2 = true) :
    (b.gate now).1.state ≠ .opened := by
  unfold CircuitBreaker.gate at *
  split_ifs at * <;> simp_all

lemma gate_fst_frame (b : CircuitBreaker) (now : Int) :
    (b.gate now).1.failureCount = b.failureCount
    ∧ (b.gate now).1.lastFailureTime = b.lastFailureTime
    ∧ (b.gate now).1.failureThreshold = b.failureThreshold
    ∧ (b.gate now).1.recoveryTimeout = b.recoveryTimeout
    ∧ ((b.gate now).1.state = .opened → b.state = .opened) := by
  unfold CircuitBreaker.gate
  split_ifs <;> simp_all

lemma inv_onSuccess (b : CircuitBreaker) : BreakerInv b.onSuccess := by
  intro h
  simp [CircuitBreaker.onSuccess] at h

lemma inv_onFailure (b : CircuitBreaker) (now : Int) (hs : b.state ≠ .opened) :
    BreakerInv (b.onFailure now) := by
  unfold CircuitBreaker.onFailure BreakerInv
  by_cases h : b.failureThreshold ≤ b.failureCount + 1 <;> simp [h]
  intro hst
  exact absurd hst hs

/-- Closed-state prefix of a counted-failure sequence: while the running
count stays strictly below the threshold the breaker remains CLOSED, counts
every failure, and keeps its configuration. -/
lemma applyFailures_closed (expected : SvcError → Bool) (e : SvcError)
    (he : expected e = true) :
    ∀ (times : List Int) (b : CircuitBreaker), b.state = .closed →
      b.failureCount + times.length < b.failureThreshold →
      (applyFailures expected e b times).state = .closed
      ∧ (applyFailures expected e b times).failureCount = b.failureCount + times.length
      ∧ (applyFailures expected e b times).failureThreshold = b.failureThreshold := by
  intro times
  induction times with
  | nil => intro b hb _; refine ⟨?_, ?_, ?_⟩ <;> simp [applyFailures, hb]
  | cons t rest ih =>
      intro b hb hcount
      have hns : b.state ≠ .opened := by rw [hb]; decide
      have hgate : b.gate t = (b, true) := gate_not_opened b t hns
      have hstep : (b.call expected t (Outcome.raise (α := Unit) e)).1 = b.onFailure t := by
        rw [call_counted expected b t e he (by rw [hgate])]
        rw [hgate]
      have hbelow : b.failureCount + 1 < b.failureThreshold := by
        simp at hcount; omega
      have hof : b.onFailure t
          = { b with failureCount := b.failureCount + 1, lastFailureTime := some t } :=
        onFailure_below b t hbelow
      have : applyFailures expected e b (t :: rest)
          = applyFailures expected e (b.onFailure t) rest := by
        simp [applyFailures, hstep]
      rw [this, hof]
      have := ih { b with failureCount := b.failureCount + 1, lastFailureTime := some t }
        (by simpa using hb) (by simp at hcount ⊢; omega)
      simpa using ⟨this.1, by rw [this.2.1]; simp at *; omega, this.2.2⟩

/-! ## Claims about the circuit breaker -/

/-- C2: after `failure_threshold` consecutive counted failures starting from
the freshly constructed breaker the state becomes OPEN, and every call made
while the state is OPEN with `now - last_failure_time < recovery_timeout`
yields the `CIRCUIT_BREAKER_OPEN` rejection with zero operation invocations
and an unchanged breaker. -/
theorem breaker_opens_then_rejects (expected : SvcError → Bool) (e : SvcError)
    (he : expected e = true) (ft : Nat) (hft : 0 < ft) (rt : Int)
    (times : List Int) (hlen : times.length = ft) :
    (applyFailures expected e (CircuitBreaker.mkInit ft rt) times).state = .opened
    ∧ ∀ (b : CircuitBreaker) (now t : Int) {α : Type} (op : Outcome SvcError α),
        b.state = .opened → b.lastFailureTime = some t →
        now - t < b.recoveryTimeout →
        b.call expected now op = (b, .circuitOpen, 0) := by
  constructor
  · rcases List.eq_nil_or_concat times with hnil | ⟨l, x, hcat⟩
    · subst hnil; simp at hlen; omega
    · subst hcat
      have hlenl : l.length + 1 = ft := by simpa using hlen
      have hfold : applyFailures expected e (CircuitBreaker.mkInit ft rt) (l.concat x)
          = ((applyFailures expected e (CircuitBreaker.mkInit ft rt) l).call expected x
              (Outcome.raise (α := Unit) e)).1 := by
        simp [applyFailures, List.foldl_concat]
      set bl := applyFailures expected e (CircuitBreaker.mkInit ft rt) l with hbl
      have hcl := applyFailures_closed expected e he l (CircuitBreaker.mkInit ft rt)
        (by simp [CircuitBreaker.mkInit]) (by simp [CircuitBreaker.mkInit]; omega)
      rw [← hbl] at hcl
      have hns : bl.state ≠ .opened := by rw [hcl.1]; decide
      have hgate : bl.gate x = (bl, true) := gate_not_opened bl x hns
      have hat : bl.failureThreshold ≤ bl.failureCount + 1 := by
        rw [hcl.2.1, hcl.2.2]
        simp [CircuitBreaker.mkInit]
        omega
      rw [hfold, call_counted expected bl x e he (by rw [hgate]), hgate]
      simp only
      rw [onFailure_at_threshold bl x hat]
  · intro b now t α op hst hlast hlt
    have hgate := gate_open_reject b now t hst hlast hlt
    rw [call_of_gate_false expected b now op (by rw [hgate]), hgate]

/-- Witness for C2 at a concrete breaker: threshold 3, recovery timeout 30,
three counted failures at times 1, 2, 3. -/
theorem breaker_opens_then_rejects_witness :
    (applyFailures (fun _ => true) dynamoDBError (CircuitBreaker.mkInit 3 30)
        [1, 2, 3]).state = .opened
    ∧ ((⟨3, 30, 3, some 3, .opened⟩ : CircuitBreaker).call (fun _ => true) 10
          (Outcome.ok ())) = (⟨3, 30, 3, some 3, .opened⟩, .circuitOpen, 0) :=
  ⟨(breaker_opens_then_rejects (fun _ => true) dynamoDBError rfl 3 (by decide) 30
      [1, 2, 3] rfl).1,
   (breaker_opens_then_rejects (fun _ => true) dynamoDBError rfl 3 (by decide) 30
      [1, 2, 3] rfl).2 ⟨3, 30, 3, some 3, .opened⟩ 10 3 (Outcome.ok ()) rfl rfl
      (by norm_num)⟩

/-- C3: for an OPEN breaker satisfying the data-model invariant whose
recovery timeout has elapsed, the gate admits exactly one trial call through
the HALF_OPEN state; a successful trial closes the breaker and zeroes the
counter immediately, and a counted trial failure re-opens it with the
failure time of that failure. -/
theorem breaker_halfOpen_trial (expected : SvcError → Bool) (b : CircuitBreaker)
    (now t : Int) (hinv : BreakerInv b) (hst : b.state = .opened)
    (hlast : b.lastFailureTime = some t) (hle : b.recoveryTimeout ≤ now - t) :
    (b.gate now).1.state = .halfOpen ∧ (b.gate now).2 = true
    ∧ (∀ {α : Type} (op : Outcome SvcError α), (b.call expected now op).2.2 = 1)
    ∧ (∀ {α : Type} (a : α),
        (b.call expected now (Outcome.ok a)).1.state = .closed
        ∧ (b.call expected now (Outcome.ok a)).1.failureCount = 0)
    ∧ ∀ e, expected e = true →
        (b.call expected now (Outcome.raise (α := Unit) e)).1.state = .opened
        ∧ (b.call expected now (Outcome.raise (α := Unit) e)).1.lastFailureTime = some now := by
  have hgate := gate_open_halfOpen b now t hst hlast hle
  have hg2 : (b.gate now).2 = true := by rw [hgate]
  have hcnt : b.failureThreshold ≤ b.failureCount := (hinv hst).2
  refine ⟨by rw [hgate], hg2, ?_, ?_, ?_⟩
  · intro α op
    unfold CircuitBreaker.call
    rw [hgate]
    cases op with
    | ok a => simp
    | raise e => by_cases he : expected e = true <;> simp [he]
  · intro α a
    rw [call_success expected b now a hg2, hgate]
    simp [CircuitBreaker.onSuccess]
  · intro e he
    rw [call_counted expected b now e he hg2, hgate]
    simp only
    rw [onFailure_at_threshold _ now (by simpa using by omega)]
    simp

/-- Witness for C3: a reachable OPEN breaker (threshold 3, count 3, last
failure at 3) trialed at time 40 with timeout 30. -/
theorem breaker_halfOpen_trial_witness :
    ((⟨3, 30, 3, some 3, .opened⟩ : CircuitBreaker).call (fun _ => true) 40
        (Outcome.ok ())).1.state = .closed :=
  ((breaker_halfOpen_trial (fun _ => true) ⟨3, 30, 3, some 3, .opened⟩ 40 3
      (fun _ => ⟨⟨3, rfl⟩, by norm_num⟩) rfl rfl (by norm_num)).2.2.2.1 ()).1

/-- C7: the freshly constructed breaker satisfies the invariant (OPEN implies
a recorded failure time and a counter at or above the threshold), every
guarded-call outcome preserves it, and the gate moves an OPEN breaker to
HALF_OPEN only once the recovery timeout has elapsed since the recorded
failure. -/
theorem breaker_invariant_preserved :
    (∀ (ft : Nat) (rt : Int), BreakerInv (CircuitBreaker.mkInit ft rt))
    ∧ (∀ (expected : SvcError → Bool) (b : CircuitBreaker) (now : Int) {α : Type}
        (op : Outcome SvcError α),
        BreakerInv b → BreakerInv (b.call expected now op).1)
    ∧ ∀ (b : CircuitBreaker) (now : Int), BreakerInv b → b.state = .opened →
        (b.gate now).1.state = .halfOpen →
        ∃ t, b.lastFailureTime = some t ∧ b.recoveryTimeout ≤ now - t := by
  refine ⟨?_, ?_, ?_⟩
  · intro ft rt h
    simp [CircuitBreaker.mkInit] at h
  · intro expected b now α op hinv
    by_cases hg : (b.gate now).2 = true
    · cases op with
      | ok a =>
          rw [call_success expected b now a hg]
          exact inv_onSuccess _
      | raise e =>
          by_cases he : expected e = true
          · rw [call_counted expected b now e he hg]
            exact inv_onFailure _ now (gate_fst_state b now hg)
          · rw [call_uncounted expected b now e (by simpa using he) hg]
            intro hst
            exact absurd hst (gate_fst_state b now hg)
    · rw [call_of_gate_false expected b now op (by simpa using hg)]
      have : (b.gate now).1 = b := by
        unfold CircuitBreaker.gate at *
        split_ifs at * <;> simp_all
      rw [this]
      exact hinv
  · intro b now hinv hst hhalf
    obtain ⟨⟨t, ht⟩, _⟩ := hinv hst
    refine ⟨t, ht, ?_⟩
    by_contra hlt
    have := gate_open_reject b now t hst ht (by omega)
    rw [this] at hhalf
    simp [hst] at hhalf

/-- Witness for C7: the invariant holds after a counted failure on the fresh
breaker, and the elapsed-gate bound at a concrete OPEN breaker. -/
theorem breaker_invariant_preserved_witness :
    BreakerInv ((CircuitBreaker.mkInit 3 30).call (fun _ => true) 0
      (Outcome.raise (α := Unit) dynamoDBError)).1 :=
  breaker_invariant_preserved.2.1 (fun _ => true) (CircuitBreaker.mkInit 3 30) 0
    (Outcome.raise (α := Unit) dynamoDBError)
    (breaker_invariant_preserved.1 3 30)

/-- C8: a dispatched guarded call that raises an error not matching the
breaker's counted kind re-raises that error, leaves `failure_count` and
`last_failure_time` untouched, and never moves the breaker into OPEN;
moreover the DynamoDB manager's classified `NOT_FOUND`, `CONFLICT` and
`VALIDATION_ERROR` errors do not match its breaker's counted kind. -/
theorem breaker_uncounted_frame (expected : SvcError → Bool) (b : CircuitBreaker)
    (now : Int) (e : SvcError) (hne : expected e = false)
    (hd : (b.gate now).2 = true) :
    (b.call expected now (Outcome.raise (α := Unit) e)).2.1 = .raised e
    ∧ (b.call expected now (Outcome.raise (α := Unit) e)).1.failureCount = b.failureCount
    ∧ (b.call expected now (Outcome.raise (α := Unit) e)).1.lastFailureTime
        = b.lastFailureTime
    ∧ ((b.call expected now (Outcome.raise (α := Unit) e)).1.state = .opened →
        b.state = .opened)
    ∧ expectedDynamo (classifyDynamo (.clientError ("ResourceNotFoundException"))) = false
    ∧ expectedDynamo (classifyDynamo (.clientError ("ConditionalCheckFailedException"))) = false
    ∧ expectedDynamo (classifyDynamo (.clientError ("ValidationException"))) = false := by
  rw [call_uncounted expected b now e hne hd]
  have hframe := gate_fst_frame b now
  exact ⟨rfl, hframe.1, hframe.2.1, hframe.2.2.2.2, by decide, by decide,
    by decide⟩

/-- Witness for C8 at a concrete CLOSED breaker with an uncounted
`NOT_FOUND` error. -/
theorem breaker_uncounted_frame_witness :
    ((⟨5, 30, 2, some 7, .closed⟩ : CircuitBreaker).call expectedDynamo 9
        (Outcome.raise (α := Unit) notFoundError)).2.1 = .raised notFoundError :=
  (breaker_uncounted_frame expectedDynamo ⟨5, 30, 2, some 7, .closed⟩ 9 notFoundError
    (by decide) (by decide)).1

/-! ## Claims about retries and classification -/

/-- C1 (code evaluated at the failing input): `execute_with_retry` with the
default `max_attempts = 3` invokes a permanently failing retryable operation
exactly once — not three times — before propagating the classified 503
database error, while the HTTP client's `_make_request` with `retries = 3`
does invoke a permanently failing operation `retries + 1 = 4` times before
re-raising the final transport error. -/
theorem executeWithRetry_invokes_once :
    ((MongoDBManager.mkInit RetryConfig.defaults).executeWithRetry 0
        (Outcome.raise (α := Unit) MongoRaw.connectionFailure)).2.2 = 1
    ∧ (MongoDBManager.mkInit RetryConfig.defaults).retryConfig.maxAttempts = 3
    ∧ ((MongoDBManager.mkInit RetryConfig.defaults).executeWithRetry 0
        (Outcome.raise (α := Unit) MongoRaw.connectionFailure)).2.1 = .raised mongoDBError
    ∧ ((DynamoDBManager.mkInit RetryConfig.defaults).executeWithRetry 0
        (Outcome.raise (α := Unit) DynamoRaw.botoCoreError)).2.2 = 1
    ∧ makeRequest 3 (fun _ => AttemptOutcome.transportError)
        = (.raisedHttp .transportError, 4) := by
  refine ⟨rfl, rfl, rfl, rfl, rfl⟩

/-- C4 counterexample: a raw failure matching no recognized classification
rule (a generic unexpected exception) is classified as the 503
`DYNAMODB_ERROR` — not as the internal kind — and one such failure does
count toward the circuit breaker, raising its failure count from 0 to 1. -/
theorem classify_unrecognized_counterexample :
    classifyDynamo DynamoRaw.otherError = dynamoDBError
    ∧ dynamoDBError ≠ internalError
    ∧ dynamoDBError.statusCode ≠ 500
    ∧ expectedDynamo (classifyDynamo DynamoRaw.otherError) = true
    ∧ (DynamoDBManager.mkInit RetryConfig.defaults).circuitBreaker.failureCount = 0
    ∧ ((DynamoDBManager.mkInit RetryConfig.defaults).executeWithRetry 0
        (Outcome.raise (α := Unit) DynamoRaw.otherError)).1.circuitBreaker.failureCount
        = 1 := by
  refine ⟨rfl, by decide, by decide, rfl, rfl, rfl⟩

/-- C4 amended: every raw failure matching none of the recognized rules is
classified as the manager's own 503 database error (`DYNAMODB_ERROR` /
`MONGODB_ERROR`), which is precisely the breaker's counted kind, so such a
failure increments the breaker's failure count; it is still never retried,
the operation being invoked exactly once. -/
theorem classify_unrecognized_counts (c : String)
    (hc1 : c ≠ "ResourceNotFoundException")
    (hc2 : c ≠ "ConditionalCheckFailedException")
    (hc3 : c ≠ "ProvisionedThroughputExceededException")
    (hc4 : c ≠ "ValidationException")
    (m : DynamoDBManager) (hb : m.circuitBreaker.state ≠ .opened) (now : Int) :
    classifyDynamo (.clientError c) = dynamoDBError
    ∧ classifyDynamo .botoCoreError = dynamoDBError
    ∧ classifyDynamo .otherError = dynamoDBError
    ∧ classifyMongo .pyMongoError = mongoDBError
    ∧ classifyMongo .otherError = mongoDBError
    ∧ expectedDynamo dynamoDBError = true
    ∧ expectedMongo mongoDBError = true
    ∧ ((m.executeWithRetry now (Outcome.raise (α := Unit) (.clientError c))).1.circuitBreaker.failureCount
        = m.circuitBreaker.failureCount + 1)
    ∧ (m.executeWithRetry now (Outcome.raise (α := Unit) (.clientError c))).2.2 = 1 := by
  have hclass : classifyDynamo (.clientError c) = dynamoDBError := by
    simp [classifyDynamo, hc1, hc2, hc3, hc4]
  have hgate : m.circuitBreaker.gate now = (m.circuitBreaker, true) :=
    gate_not_opened m.circuitBreaker now hb
  have hcall : m.circuitBreaker.call expectedDynamo now
      (Outcome.raise (α := Unit) dynamoDBError)
      = (m.circuitBreaker.onFailure now, .raised dynamoDBError, 1) := by
    rw [call_counted expectedDynamo m.circuitBreaker now dynamoDBError rfl (by rw [hgate]),
      hgate]
  have hexec : m.executeWithRetry now (Outcome.raise (α := Unit) (.clientError c))
      = ({ m with circuitBreaker := m.circuitBreaker.onFailure now },
         .raised dynamoDBError, 1) := by
    unfold DynamoDBManager.executeWithRetry
    simp only [Outcome.mapErr, hclass, hcall]
  refine ⟨hclass, rfl, rfl, rfl, rfl, rfl, rfl, ?_, ?_⟩
  · rw [hexec]
    show (m.circuitBreaker.onFailure now).failureCount = m.circuitBreaker.failureCount + 1
    by_cases hth : m.circuitBreaker.failureThreshold ≤ m.circuitBreaker.failureCount + 1
    · rw [onFailure_at_threshold _ _ hth]
    · rw [onFailure_below _ _ (by omega)]
  · rw [hexec]

/-- Witness for the amended C4 at a concrete unrecognized AWS error code and
the freshly constructed manager. -/
theorem classify_unrecognized_counts_witness :
    classifyDynamo (.clientError ("InternalServerError")) = dynamoDBError :=
  (classify_unrecognized_counts ("InternalServerError") (by decide) (by decide)
    (by decide) (by decide) (DynamoDBManager.mkInit RetryConfig.defaults)
    (by decide) 0).1

/-- All-retryable-status run of the `_make_request` loop: every attempt
yields the same retryable status, so each non-final attempt is converted into
a retried error and the final attempt's response is returned. -/
lemma makeRequestGo_all_retryable (retries s : Nat) (hs : retryableStatus s = true)
    (op : Nat → AttemptOutcome) (hop : ∀ a, op a = AttemptOutcome.response s) :
    ∀ (fuel a : Nat) (last : Option HttpErr), a + fuel = retries + 1 → 1 ≤ fuel →
      makeRequestGo retries op fuel a last = (.returned s, fuel) := by
  intro fuel
  induction fuel with
  | zero => intro a last _ h1; omega
  | succ f ihf =>
      intro a last hsum _
      simp only [makeRequestGo, hop]
      by_cases hf : 1 ≤ f
      · have ha : a < retries := by omega
        rw [if_pos (show retryableStatus s = true ∧ a < retries from ⟨hs, ha⟩)]
        rw [ihf (a + 1) (some (.statusError s)) (by omega) hf]
      · have hf0 : f = 0 := by omega
        have ha : ¬ (retryableStatus s = true ∧ a < retries) := by
          rintro ⟨-, hlt⟩; omega
        rw [if_neg ha, hf0]

/-- Prefix-failure run of the `_make_request` loop: the first `j` attempts
yield a retryable status and attempt `j` succeeds with status 200. -/
lemma makeRequestGo_prefix_retryable (retries s j : Nat) (hs : retryableStatus s = true)
    (hj : j ≤ retries) :
    ∀ (fuel a : Nat) (last : Option HttpErr), a + fuel = retries + 1 → a ≤ j →
      makeRequestGo retries (fun a => if a < j then AttemptOutcome.response s
        else .response 200) fuel a last = (.returned 200, j + 1 - a) := by
  intro fuel
  induction fuel with
  | zero => intro a last hsum haj; omega
  | succ f ihf =>
      intro a last hsum haj
      simp only [makeRequestGo]
      by_cases haj2 : a < j
      · simp only [if_pos haj2]
        have ha : a < retries := by omega
        rw [if_pos (show retryableStatus s = true ∧ a < retries from ⟨hs, ha⟩)]
        rw [ihf (a + 1) (some (.statusError s)) (by omega) (by omega)]
        have : j + 1 - a = (j + 1 - (a + 1)) + 1 := by omega
        rw [this]
      · have haeq : a = j := by omega
        simp only [if_neg haj2]
        have hnr : ¬ (retryableStatus 200 = true ∧ a < retries) := by
          rintro ⟨h200, -⟩; simp [retryableStatus] at h200
        rw [if_neg hnr]
        have : j + 1 - a = 1 := by omega
        rw [this]

/-- C10: when every attempt of `_make_request` yields a 502/503/504 response,
each of the first `retries` responses is converted into a retried error and
the final attempt's response is returned to the caller as a normal result
(`retries + 1` requests issued, nothing raised); and when the retryable
statuses stop after `j ≤ retries` attempts, the next response is returned
with only `j + 1` requests issued. -/
theorem makeRequest_final_retryable_returned (retries s : Nat)
    (hs : s = 502 ∨ s = 503 ∨ s = 504) :
    makeRequest retries (fun _ => AttemptOutcome.response s)
      = (.returned s, retries + 1)
    ∧ ∀ j, j ≤ retries →
        makeRequest retries (fun a => if a < j then AttemptOutcome.response s
          else .response 200) = (.returned 200, j + 1) := by
  have hrs : retryableStatus s = true := by
    rcases hs with h | h | h <;> simp [retryableStatus, h]
  constructor
  · exact makeRequestGo_all_retryable retries s hrs _ (fun _ => rfl) (retries + 1) 0 none
      (by omega) (by omega)
  · intro j hj
    have := makeRequestGo_prefix_retryable retries s j hrs hj (retries + 1) 0 none
      (by omega) (by omega)
    rw [makeRequest, this]
    simp

/-- Witness for C10 with `retries = 3`, status 503, and one retryable
response before a success. -/
theorem makeRequest_final_retryable_returned_witness :
    makeRequest 3 (fun _ => AttemptOutcome.response 503) = (.returned 503, 4)
    ∧ makeRequest 3 (fun a => if a < 1 then AttemptOutcome.response 503
        else .response 200) = (.returned 200, 2) :=
  ⟨(makeRequest_final_retryable_returned 3 503 (Or.inr (Or.inl rfl))).1,
   (makeRequest_final_retryable_returned 3 503 (Or.inr (Or.inl rfl))).2 1 (by decide)⟩

/-! ## Claims about backoff delays -/

/-- All-failure run of the `set_with_retry` loop: it returns False and
sleeps `base_delay * 2 ** attempt` after every non-final attempt. -/
lemma setWithRetryGo_allFail (cfg : RetryConfig) :
    ∀ (fuel a : Nat), a + fuel = cfg.maxAttempts →
      setWithRetryGo cfg (fun _ => false) fuel a
        = (false, (List.range' a (fuel - 1)).map (cacheSetDelay cfg)) := by
  intro fuel
  induction fuel with
  | zero => intro a _; simp [setWithRetryGo]
  | succ f ihf =>
      intro a hsum
      simp only [setWithRetryGo, Bool.false_eq_true, if_false]
      by_cases hlt : a < cfg.maxAttempts - 1
      · rw [if_pos hlt, ihf (a + 1) (by omega)]
        obtain ⟨f1, rfl⟩ : ∃ f1, f = f1 + 1 := ⟨f - 1, by omega⟩
        simp [List.range']
      · rw [if_neg hlt]
        have hf0 : f = 0 := by omega
        subst hf0
        simp [setWithRetryGo]

/-- C5 counterexample: with eight attempts, base delay 1 and the standard
cap `max_delay = 60`, the delay slept after the 7th failed attempt is 64 —
it differs from the claimed `min(maxDelay, baseDelay * multiplier^(k-1))`
and exceeds `max_delay`; and the HTTP client's jittered first delay with
the sampled factor `u = 0.1` is `1.1`, larger than the un-jittered base
delay, so the jitter multiplier does not lie in `[0.5, 1.0]`. -/
theorem backoff_cap_counterexample :
    cacheSetDelay c5cfg 6 = 64
    ∧ cacheSetDelay c5cfg 6
        ≠ min c5cfg.maxDelay (c5cfg.baseDelay * c5cfg.exponentialBase ^ 6)
    ∧ ¬ cacheSetDelay c5cfg 6 ≤ c5cfg.maxDelay
    ∧ (setWithRetry c5cfg (fun _ => false)).2.getLast? = some 64
    ∧ httpBackoffWait 0 (1 / 10) = 11 / 10
    ∧ ¬ httpBackoffWait 0 (1 / 10) ≤ 1 := by
  refine ⟨by norm_num [cacheSetDelay, c5cfg], ?_, ?_, ?_, ?_, ?_⟩
  · norm_num [cacheSetDelay, c5cfg, min_def]
  · norm_num [cacheSetDelay, c5cfg]
  · rw [setWithRetry, setWithRetryGo_allFail c5cfg c5cfg.maxAttempts 0 rfl]
    norm_num [List.range', cacheSetDelay, c5cfg]
  · norm_num [httpBackoffWait]
  · norm_num [httpBackoffWait]

/-- C5 amended: the cache-set delay after the failed attempt with 0-based
index `k` is exactly `baseDelay * 2^k` — uncapped, jitter ignored — and the
HTTP client delay after attempt `k` is `2^k * (1 + u)` with sampled
`u ≥ 0`; for a non-negative base delay both sequences are non-decreasing,
the HTTP delay is never below the un-jittered `2^k`, and a permanently
failing `set_with_retry` returns False after sleeping precisely those
`maxAttempts - 1` delays. -/
theorem backoff_uncapped_monotone (cfg : RetryConfig) (h0 : 0 ≤ cfg.baseDelay)
    (j k : Nat) (hjk : j ≤ k) (u : Rat) (hu : 0 ≤ u) :
    cacheSetDelay cfg k = cfg.baseDelay * 2 ^ k
    ∧ cacheSetDelay cfg j ≤ cacheSetDelay cfg k
    ∧ httpBackoffWait k u = 2 ^ k * (1 + u)
    ∧ httpBackoffWait j u ≤ httpBackoffWait k u
    ∧ (2 : Rat) ^ k ≤ httpBackoffWait k u
    ∧ (setWithRetry cfg (fun _ => false)).1 = false
    ∧ (setWithRetry cfg (fun _ => false)).2
        = (List.range (cfg.maxAttempts - 1)).map (cacheSetDelay cfg) := by
  have hpow : (2 : Rat) ^ j ≤ 2 ^ k := by
    exact pow_le_pow_right₀ (by norm_num) hjk
  have hloop := setWithRetryGo_allFail cfg cfg.maxAttempts 0 (by omega)
  refine ⟨rfl, ?_, ?_, ?_, ?_, ?_, ?_⟩
  · exact mul_le_mul_of_nonneg_left hpow h0
  · unfold httpBackoffWait; ring
  · unfold httpBackoffWait
    have := mul_le_mul_of_nonneg_right hpow hu
    linarith
  · unfold httpBackoffWait
    have : 0 ≤ (2 : Rat) ^ k * u := by positivity
    linarith
  · rw [setWithRetry, hloop]
  · rw [setWithRetry, hloop, List.range_eq_range']

/-- Witness for the amended C5 at the default retry configuration,
attempts 0 and 1, jitter sample 0. -/
theorem backoff_uncapped_monotone_witness :
    (setWithRetry RetryConfig.defaults (fun _ => false)).2
      = (List.range (RetryConfig.defaults.maxAttempts - 1)).map
          (cacheSetDelay RetryConfig.defaults) :=
  (backoff_uncapped_monotone RetryConfig.defaults (by norm_num [RetryConfig.defaults])
    0 1 (by norm_num) 0 le_rfl).2.2.2.2.2.2

/-! ## Claims about service discovery -/

/-- A failing registry fetch leaves the discovery state untouched. -/
lemma refresh_error_frame (st : SDState) (now : Int) :
    refreshServiceCache st now (.error ()) = st := by
  unfold refreshServiceCache applyRegistryResponse
  split <;> rfl

/-- The post-refresh resolution serves the cached truthy `full_url` first and
the truthy fallback otherwise. -/
lemma resolveAfterRefresh_spec (cache : List (String × List (String × String)))
    (env : String → Option String) (name : String) :
    (∀ v, truthyOpt (fullUrlOf cache name) = some v →
        resolveAfterRefresh cache env name = some v)
    ∧ (truthyOpt (fullUrlOf cache name) = none →
        resolveAfterRefresh cache env name = truthyOpt (getFallbackEndpoint env name)) := by
  unfold resolveAfterRefresh
  cases h : truthyOpt (fullUrlOf cache name) <;> simp [h]

/-- C6: when the cache is no longer valid and the registry refresh fails,
`get_service_endpoint` returns the previously cached (stale) value when one
exists, otherwise the static fallback; whenever either exists the caller
receives a value (never an error). -/
theorem resolve_stale_or_fallback (st : SDState) (now : Int) (name : String)
    (hexp : st.isCacheValid now = false) :
    (∀ v, truthyOpt (fullUrlOf st.serviceCache name) = some v →
        (st.getServiceEndpoint now (.error ()) name).2 = some v)
    ∧ (truthyOpt (fullUrlOf st.serviceCache name) = none →
        (st.getServiceEndpoint now (.error ()) name).2
          = truthyOpt (getFallbackEndpoint st.env name))
    ∧ ((truthyOpt (fullUrlOf st.serviceCache name)).isSome = true
          ∨ (truthyOpt (getFallbackEndpoint st.env name)).isSome = true →
        ((st.getServiceEndpoint now (.error ()) name).2).isSome = true) := by
  have hmain : st.getServiceEndpoint now (.error ()) name
      = (st, resolveAfterRefresh st.serviceCache st.env name) := by
    unfold SDState.getServiceEndpoint
    rw [hexp]
    simp only [Bool.false_eq_true, if_false, refresh_error_frame]
  have hspec := resolveAfterRefresh_spec st.serviceCache st.env name
  refine ⟨?_, ?_, ?_⟩
  · intro v hv
    rw [hmain]
    exact hspec.1 v hv
  · intro hnone
    rw [hmain]
    exact hspec.2 hnone
  · intro hor
    rw [hmain]
    cases h : truthyOpt (fullUrlOf st.serviceCache name) with
    | some v => rw [hspec.1 v h]; rfl
    | none =>
        rw [hspec.2 h]
        rcases hor with hl | hr
        · rw [h] at hl; simp at hl
        · exact hr

/-- Witness for C6: the expired `auth` entry is served stale while the
registry is failing. -/
theorem resolve_stale_or_fallback_witness :
    (c6state.getServiceEndpoint 1000 (.error ()) "auth").2 = some ("http://stale") :=
  (resolve_stale_or_fallback c6state 1000 ("auth") (by decide)).1 ("http://stale") (by decide)

/-- One task segment raises the fetch counter only by consuming the task's
single pre-check phase. -/
lemma taskStep_potential (now : Int) (reg : Except Unit (List (String × String)))
    (sd : SDState) (fc : Nat) (t : ResolveTask) :
    (taskStep now reg sd fc t).2.1
      + (if (taskStep now reg sd fc t).2.2.phase = .ready then 1 else 0)
      ≤ fc + (if t.phase = .ready then 1 else 0) := by
  rcases t with ⟨n, ph⟩
  cases ph with
  | ready =>
      unfold taskStep
      cases h : (if sd.isCacheValid now then truthyOpt (fullUrlOf sd.serviceCache n) else none) with
      | some v => simp [h]
      | none =>
          by_cases hs : sd.ssmAvailable = true
          · simp [h, hs]
          · simp [h, hs]
  | waiting => unfold taskStep; simp
  | finished r => unfold taskStep; simp

/-- One scheduler step never increases `fetchCount + readyCount`. -/
lemma step_potential (sys : ConcSys) (now : Int)
    (reg : Except Unit (List (String × String))) (i : Bool) :
    (sys.step now reg i).fetchCount + (sys.step now reg i).readyCount
      ≤ sys.fetchCount + sys.readyCount := by
  cases i with
  | false =>
      have h := taskStep_potential now reg sys.sd sys.fetchCount sys.t0
      unfold ConcSys.step ConcSys.readyCount
      simp only [Bool.false_eq_true, if_false]
      omega
  | true =>
      have h := taskStep_potential now reg sys.sd sys.fetchCount sys.t1
      unfold ConcSys.step ConcSys.readyCount
      simp only [if_true]
      omega

/-- The potential bound extends over any schedule. -/
lemma run_potential (now : Int) (reg : Except Unit (List (String × String)))
    (sched : List Bool) :
    ∀ sys : ConcSys,
      (sys.run now reg sched).fetchCount + (sys.run now reg sched).readyCount
        ≤ sys.fetchCount + sys.readyCount := by
  induction sched with
  | nil => intro sys; simp [ConcSys.run]
  | cons i rest ih =>
      intro sys
      have h1 := step_potential sys now reg i
      have h2 := ih (sys.step now reg i)
      simp only [ConcSys.run, List.foldl_cons] at *
      omega

/-- C9 counterexample: with an expired cache, the interleaving in which both
resolve calls pass their cache check before either registry fetch completes
performs two fetches — more than the single-flight claim's one — even though
both calls resolve the same service and both ultimately succeed. -/
theorem singleflight_counterexample :
    (twoResolves.run 100 regAuth [false, true, false, true]).fetchCount = 2
    ∧ ¬ (twoResolves.run 100 regAuth [false, true, false, true]).fetchCount ≤ 1
    ∧ (twoResolves.step 100 regAuth false).t0.phase = .waiting
    ∧ ((twoResolves.step 100 regAuth false).step 100 regAuth true).t1.phase = .waiting
    ∧ (twoResolves.run 100 regAuth [false, true, false, true]).t0.phase
        = .finished (some ("http://a"))
    ∧ (twoResolves.run 100 regAuth [false, true, false, true]).t1.phase
        = .finished (some ("http://a")) := by
  refine ⟨by decide, by decide, by decide, by decide, by decide, by decide⟩

/-- C9 amended: refresh is not single-flight — each resolve call that
observes an expired cache performs its own registry fetch.  Each call
fetches at most once (so two concurrent calls fetch at most twice), the
fully interleaved schedule performs exactly two fetches, and only the
sequential schedule — where the first call's refresh completes before the
second call checks the cache — performs one. -/
theorem resolve_fetch_per_caller (sys : ConcSys) (now : Int)
    (reg : Except Unit (List (String × String))) (sched : List Bool)
    (h0 : sys.fetchCount = 0) :
    (sys.run now reg sched).fetchCount ≤ 2
    ∧ (twoResolves.run 100 regAuth [false, true, false, true]).fetchCount = 2
    ∧ (twoResolves.run 100 regAuth [false, false, true, true]).fetchCount = 1 := by
  refine ⟨?_, by decide, by decide⟩
  have h := run_potential now reg sched sys
  have hr : sys.readyCount ≤ 2 := by
    unfold ConcSys.readyCount
    split_ifs <;> omega
  omega

/-- Witness for the amended C9 at the concrete two-task system. -/
theorem resolve_fetch_per_caller_witness :
    (twoResolves.run 100 regAuth [false, true, false, true]).fetchCount ≤ 2 :=
  (resolve_fetch_per_caller twoResolves 100 regAuth [false, true, false, true] rfl).1

end ShopSmart
